import Mathlib

/-!
Verification of match_chewBBACA_to_Enterobase.

Shallow embedding of the two scripts of the repository
(`src/match_chewBBACA_to_Enterobase.py` and `src/precluster_HC400.py`),
together with theorems settling the behavioural claims about the profile
matcher, the best-match selection, the confidence-bucket derivation, the
preclustering index builder and the error path of the main loop.

Modelling conventions:
* A table cell read by `pd.read_csv(..., dtype=str)` is an `Option String`:
  `some a` is an allele-call string, `none` embeds a pandas `NaN` (an empty
  field).  Pandas elementwise `==` on object columns returns `False`
  whenever either operand is `NaN`, in particular for `NaN == NaN`.
* `DataFrame.sort_values` is modelled as a stable sort (insertion sort).
  This is a modelling assumption, not a property of the source: the source
  calls `sort_values` with the default `kind='quicksort'`, whose tie order
  pandas documents as unstable; numpy only degenerates to a (stable)
  insertion sort below its small-array cutoff of about 16 elements, where
  the double reversal in pandas' descending `nargsort` makes the tie order
  first-wins.  Every concrete frame this development evaluates through the
  sort stays within that regime; no universal tie-order statement is
  derived from the model.
* Python exceptions that no caller catches are embedded with
  `Except String`: the first `.error` aborts the remainder of the run.
* The integer-typed tables of `precluster_HC400.py` (read without
  `dtype=str`) use `Int` cells.
-/

namespace MCE

/-- A cell of a profile table as loaded with `dtype=str`: `some a` is an
allele-call string, `none` is a pandas NaN (missing field). -/
abbrev Cell := Option String

/-- Pandas elementwise `==` on two object cells: exact string equality,
and NaN (`none`) compares unequal to everything, including another NaN. -/
def cellEq : Cell → Cell → Bool
  | some x, some y => x == y
  | _, _ => false

/-- One row of a profile chunk: the identifier column (`HC1100` value of the
representative table, or `ST` of a shard file) followed by the allele-call
columns.  Embeds a row of the DataFrames handled by `process_chunk`. -/
structure Row where
  id : String
  alleles : List Cell
deriving Repr, DecidableEq

/-- Row-wise match count of `process_chunk` (lines 96–97 of
`match_chewBBACA_to_Enterobase.py`): the elementwise comparison
`comparator.iloc[:,1:] == chunk.iloc[:,1:]` followed by `.sum(axis=1)`.
The identifier column (position 0) of both frames is excluded by the
`iloc[:,1:]` slice; here the query and the row are already the allele
columns only. -/
def matchCount : List Cell → List Cell → Nat
  | q :: qs, r :: rs => (if cellEq q r then 1 else 0) + matchCount qs rs
  | _, _ => 0

/-- Embedding of `process_chunk`: pair the identifier column of every chunk
row with the number of allele columns matching the query row. -/
def process_chunk (chunk : List Row) (query : List Cell) : List (String × Nat) :=
  chunk.map (fun r => (r.id, matchCount query r.alleles))

/-- The `process_chunk` call viewed as a transformer of the stored chunk:
`chunk[[level]]` copies the identifier column into a fresh frame `df_ST`
(pandas selection with a list of labels copies), the comparator frame is
freshly built, and the `matches` column is written onto that copy (the
suppressed SettingWithCopyWarning), so the stored chunk after the call is
the chunk before the call. -/
def process_chunk_st (chunk : List Row) (query : List Cell) :
    List (String × Nat) × List Row :=
  let df_ST := chunk.map (fun r => r.id)
  let matchCol := chunk.map (fun r => matchCount query r.alleles)
  (df_ST.zip matchCol, chunk)

/-- Insert into a list already sorted by descending match count, keeping the
new element before the first strictly smaller one, which places it after all
elements with an equal count. -/
def insertDesc (x : String × Nat) : List (String × Nat) → List (String × Nat)
  | [] => [x]
  | y :: ys => if x.2 < y.2 then y :: insertDesc x ys else x :: y :: ys

/-- Model of `df.sort_values('matches', ascending=False)` (lines 129 and
135) as a stable descending sort by match count.  The source uses the
default `kind='quicksort'`, which guarantees this tie order only below
numpy's small-array insertion-sort cutoff (see the header notes): the
model is exact for the small concrete frames evaluated here, while for
larger frames the program's order among equal counts is numpy's introsort
order, which is not modelled. -/
def sort_values_desc : List (String × Nat) → List (String × Nat)
  | [] => []
  | x :: xs => insertDesc x (sort_values_desc xs)

/-- The selection `df.iloc[0,:]` applied after the descending sort: the
first row of the sorted frame, `none` on an empty frame (where the source
would raise an `IndexError`). -/
def selected (xs : List (String × Nat)) : Option (String × Nat) :=
  (sort_values_desc xs).head?

/-- First row attaining the maximal match count, in input order. -/
def firstMax : List (String × Nat) → Option (String × Nat)
  | [] => none
  | x :: xs =>
    match firstMax xs with
    | none => some x
    | some m => if x.2 < m.2 then some m else some x

/-- Modelled from the spec: the BestMatchSelector fold of §4.4, keeping the
running best across batches, with the earlier-seen candidate kept on an
equal match count.  The source processes each table as a single chunk; the
fold is the contract the spec states for folding over several batches. -/
def combineBest : Option (String × Nat) → Option (String × Nat) → Option (String × Nat)
  | none, r => r
  | some b, none => some b
  | some b, some c => if b.2 < c.2 then some c else some b

/-- Modelled from the spec: running the per-batch selection over a list of
scored batches and folding the results with `combineBest`, batch order
preserved. -/
def selectAcrossBatches (batches : List (List (String × Nat))) : Option (String × Nat) :=
  batches.foldl (fun acc batch => combineBest acc (selected batch)) none

/-- Python `str.rstrip(chars)`: remove every trailing character drawn from
the character set of the argument. -/
def pyRstrip (s : String) (chars : List Char) : String :=
  ⟨(s.data.reverse.dropWhile (fun c => chars.contains c)).reverse⟩

/-- The character set of the `'.fasta'` argument of `rstrip` on line 127. -/
def fastaStripSet : List Char := ['.', 'f', 'a', 's', 't']

/-- Line 127: `isolate_name = chewbbaca_output_isolate.iloc[0,0].rstrip('.fasta')`. -/
def isolate_name (FILE : String) : String := pyRstrip FILE fastaStripSet

/-- Line 132 of `match_chewBBACA_to_Enterobase.py`: the shard file path the
resolver opens for a selected cluster value,
`profiles_outdir + '/HC1100_' + str(selected_HC1100) + '.tsv'`. -/
def resolver_shard_filepath (profiles_outdir cluster_value : String) : String :=
  profiles_outdir ++ "/HC1100_" ++ cluster_value ++ ".tsv"

/-- Line 58 of `precluster_HC400.py`: the shard file path the index builder
writes for a cluster value, `profiles_outdir + '/HC400_' + str(HC400) + '.tsv'`. -/
def builder_shard_filepath (profiles_outdir cluster_value : String) : String :=
  profiles_outdir ++ "/HC400_" ++ cluster_value ++ ".tsv"

/-- One row of the ST→hierCC lookup table as read with `dtype=str`: the ST
and the hierCC level values of the remaining columns. -/
structure HierCCRow where
  st : String
  levels : List String
deriving Repr, DecidableEq

/-- The ordered confidence table `levels_dict` of `collect_output_data`
(line 209); Python dicts iterate in insertion order. -/
def levels_dict : List (String × Int) :=
  [("HC20", 20), ("HC50", 50), ("HC100", 100), ("HC200", 200), ("HC400", 400),
   ("HC1100", 1100), ("unreliable", 9999)]

/-- The for/break loop over `levels_dict` (lines 210–212): stop at the first
level whose threshold is at least the mismatch count; when no `break` fires
the loop variable keeps the last entry of the table. -/
def pickLevel (mm : Int) : List (String × Int) → String → String
  | [], last => last
  | (name, thr) :: rest, _ => if mm ≤ thr then name else pickLevel mm rest name

/-- Follows the spec wording for the EMIT step (§4.6 and scenario 4): the
confidence level is the first bucket of the ordered table HC20, HC50,
HC100, HC200, HC400, HC1100, unreliable whose threshold is at least
max_mismatches, the last bucket being unbounded. -/
def spec_confidence (mm : Int) : String :=
  if mm ≤ 20 then "HC20"
  else if mm ≤ 50 then "HC50"
  else if mm ≤ 100 then "HC100"
  else if mm ≤ 200 then "HC200"
  else if mm ≤ 400 then "HC400"
  else if mm ≤ 1100 then "HC1100"
  else "unreliable"

/-- One output row assembled by `collect_output_data`: the five inserted
columns followed by the hierCC row they were prepended to. -/
structure OutputRow where
  out_isolate_name : String
  matching_alleles : Int
  max_mismatches : Int
  confidence_level : String
  nr_loci : Nat
  hier : HierCCRow
deriving Repr, DecidableEq

/-- `collect_output_data` (lines 208–224): derive `max_mismatches` as
`nr_loci - matching_alleles`, pick the confidence level with the for/break
loop, and insert the five columns in front of every selected hierCC row. -/
def collect_output_data (selected_df : List HierCCRow) (iso : String)
    (matching_alleles : Int) (nr_loci : Nat) : List OutputRow :=
  let hierCC_threshold : Int := (nr_loci : Int) - matching_alleles
  let confidence := pickLevel hierCC_threshold levels_dict ""
  selected_df.map (fun h =>
    { out_isolate_name := iso, matching_alleles := matching_alleles,
      max_mismatches := hierCC_threshold, confidence_level := confidence,
      nr_loci := nr_loci, hier := h })

/-- `select_hierCC` (lines 140–178): `df_ST_to_hierCC.query('ST == @ST')`,
raising when the resulting frame has zero rows. -/
def select_hierCC (df_ST_to_hierCC : List HierCCRow) (ST : String) :
    Except String (List HierCCRow) :=
  let df_selected_ST_hierCC := df_ST_to_hierCC.filter (fun r => r.st == ST)
  if df_selected_ST_hierCC.length = 0 then
    .error ("cgMLST " ++ ST ++ " was not found in the ST to hierCC lookup table. Please check whether these files were produced from the same database version")
  else
    .ok df_selected_ST_hierCC

/-- `identify_cgMLST_isolate` (lines 101–138), with the shard directory
embedded as an association list from file path to file rows; `pd.read_csv`
of an absent path and `iloc[0]` of an empty frame are the error cases. -/
def identify_cgMLST_isolate (HC1100_representative : List Row)
    (profiles_outdir : String) (shard_files : List (String × List Row))
    (query : List Cell) (FILE : String) :
    Except String (String × Nat × String) :=
  let iso := isolate_name FILE
  match selected (process_chunk HC1100_representative query) with
  | none => .error "IndexError: empty representative frame"
  | some (selected_HC1100, _) =>
    let filepath := resolver_shard_filepath profiles_outdir selected_HC1100
    match shard_files.lookup filepath with
    | none => .error ("FileNotFoundError: " ++ filepath)
    | some chunk =>
      match selected (process_chunk chunk query) with
      | none => .error "IndexError: empty shard frame"
      | some (selected_ST, matching_alleles) =>
        .ok (selected_ST, matching_alleles, iso)

/-- The per-isolate loop of `main` (lines 253–261): identify the closest
cgMLST, look the ST up in the hierCC table, collect the output row, and
concatenate.  No exception is caught anywhere in `main`, so the first
`.error` terminates the loop and the whole run. -/
def main_loop (reps : List Row) (profiles_outdir : String)
    (shard_files : List (String × List Row)) (df_ST_to_hierCC : List HierCCRow)
    (nr_loci : Nat) :
    List (String × List Cell) → Except String (List OutputRow)
  | [] => .ok []
  | (FILE, query) :: rest =>
    match identify_cgMLST_isolate reps profiles_outdir shard_files query FILE with
    | .error e => .error e
    | .ok (selected_ST, matching_alleles, iso) =>
      match select_hierCC df_ST_to_hierCC selected_ST with
      | .error e => .error e
      | .ok sel =>
        match main_loop reps profiles_outdir shard_files df_ST_to_hierCC nr_loci rest with
        | .error e => .error e
        | .ok out =>
          .ok (collect_output_data sel iso (matching_alleles : Int) nr_loci ++ out)

/-- One row of the ST→hierCC table as read by `precluster_HC400.py` without
`dtype=str`: both the ST and the HC400 columns are integers. -/
structure STHCRow where
  st : Int
  hc400 : Int
deriving Repr, DecidableEq

/-- Helper of `uniqueVals`: keep the first occurrence of every value,
carrying the set of values already seen. -/
def uniqueValsAux (seen : List Int) : List Int → List Int
  | [] => []
  | x :: xs =>
    if seen.contains x then uniqueValsAux seen xs
    else x :: uniqueValsAux (x :: seen) xs

/-- `df['HC400'].unique()` (line 32): the distinct values of the column in
order of first appearance. -/
def uniqueVals (l : List Int) : List Int := uniqueValsAux [] l

/-- Insert into an ascending list, before the first element that is not
smaller: the stable insertion step of the ascending sort. -/
def insertAsc (x : Int) : List Int → List Int
  | [] => [x]
  | y :: ys => if x ≤ y then x :: y :: ys else y :: insertAsc x ys

/-- Stable ascending sort of the ST column, embedding
`sort_values('ST')` on line 34. -/
def sortAsc : List Int → List Int
  | [] => []
  | x :: xs => insertAsc x (sortAsc xs)

/-- Minimum of a list of integers, first occurrence kept on ties. -/
def minOpt : List Int → Option Int
  | [] => none
  | x :: xs =>
    match minOpt xs with
    | none => some x
    | some m => if x ≤ m then some x else some m

/-- Line 34 of `precluster_HC400.py`:
`df[df['HC400'] == HC].sort_values('ST').reset_index().loc[0, 'ST']` —
the head of the ST-ascending sort of the group of rows whose HC400 value is
`hc`, i.e. the numerically lowest ST of the group. -/
def groupHeadST (table : List STHCRow) (hc : Int) : Option Int :=
  (sortAsc ((table.filter (fun r => r.hc400 == hc)).map (fun r => r.st))).head?

/-- `get_representatives` (lines 28–37): one `(ST, HC400)` pair per distinct
HC400 value of the table, in first-appearance order of the HC400 values,
the ST being the head of the ST-ascending sort of the group.  The profiles
table plays no part here: the representative is chosen regardless of
whether its profile exists. -/
def get_representatives (table : List STHCRow) : List (Int × Int) :=
  (uniqueVals (table.map (fun r => r.hc400))).filterMap
    (fun hc => (groupHeadST table hc).map (fun st => (st, hc)))

/-- A full profile row of `profiles.list`: the ST and its allele columns. -/
structure ProfileRow where
  st : Int
  alleles : List Int
deriving Repr, DecidableEq

/-- `process_ST` (lines 40–45): when the representative ST occurs in the
profiles table, append its profile rows tagged with the HC400 value to the
accumulated output frame; otherwise return the frame unchanged. -/
def process_ST (df_out : List (Int × ProfileRow)) (ST HC400 : Int)
    (df_profiles : List ProfileRow) : List (Int × ProfileRow) :=
  let ST_row := df_profiles.filter (fun r => r.st == ST)
  if 0 < ST_row.length then df_out ++ ST_row.map (fun r => (HC400, r)) else df_out

/-- The representative-table loop of `main` in `precluster_HC400.py`
(lines 71–74): fold `process_ST` over the representative rows, starting
from an empty frame.  The result is the representative table written to
the output path. -/
def build_representative_table (table : List STHCRow)
    (df_profiles : List ProfileRow) : List (Int × ProfileRow) :=
  (get_representatives table).foldl
    (fun acc p => process_ST acc p.1 p.2 df_profiles) []

theorem insertDesc_head (x : String × Nat) (l : List (String × Nat)) :
    (insertDesc x l).head? =
      some (match l.head? with
            | none => x
            | some y => if x.2 < y.2 then y else x) := by
  cases l with
  | nil => rfl
  | cons y ys =>
    by_cases hc : x.2 < y.2 <;> simp [insertDesc, hc]

theorem selected_eq_firstMax (xs : List (String × Nat)) :
    selected xs = firstMax xs := by
  induction xs with
  | nil => rfl
  | cons x xs ih =>
    simp only [selected, sort_values_desc, firstMax, insertDesc_head]
    simp only [selected] at ih
    rw [ih]
    cases firstMax xs with
    | none => rfl
    | some m => by_cases hc : x.2 < m.2 <;> simp [hc]

theorem matchCount_le_right : ∀ q r : List Cell, matchCount q r ≤ r.length
  | [], _ => Nat.zero_le _
  | _ :: _, [] => Nat.zero_le _
  | q :: qs, r :: rs => by
    have ih := matchCount_le_right qs rs
    simp only [matchCount, List.length_cons]
    split <;> omega

theorem cellEq_self (x : Cell) : cellEq x x = true ↔ x ≠ none := by
  cases x <;> simp [cellEq]

theorem firstMax_append (xs ys : List (String × Nat)) :
    firstMax (xs ++ ys) = combineBest (firstMax xs) (firstMax ys) := by
  induction xs with
  | nil => rfl
  | cons x xs ih =>
    simp only [List.cons_append, firstMax]
    rw [show (xs.append ys) = xs ++ ys from rfl, ih]
    cases hb : firstMax xs with
    | none =>
      cases hc : firstMax ys with
      | none => rfl
      | some c => by_cases h : x.2 < c.2 <;> simp [combineBest, h]
    | some b =>
      cases hc : firstMax ys with
      | none => by_cases h : x.2 < b.2 <;> simp [combineBest, h]
      | some c =>
        by_cases h1 : b.2 < c.2 <;> by_cases h2 : x.2 < b.2 <;> by_cases h3 : x.2 < c.2 <;>
          simp [combineBest, h1, h2, h3] <;> (exfalso; omega)

theorem combineBest_assoc (a b c : Option (String × Nat)) :
    combineBest (combineBest a b) c = combineBest a (combineBest b c) := by
  cases a with
  | none => rfl
  | some a =>
    cases b with
    | none => rfl
    | some b =>
      cases c with
      | none => by_cases h : a.2 < b.2 <;> simp [combineBest, h]
      | some c =>
        by_cases h1 : a.2 < b.2 <;> by_cases h2 : b.2 < c.2 <;> by_cases h3 : a.2 < c.2 <;>
          simp [combineBest, h1, h2, h3] <;> (exfalso; omega)

theorem foldl_combineBest (bs : List (List (String × Nat))) :
    ∀ acc, bs.foldl (fun a batch => combineBest a (selected batch)) acc =
      combineBest acc (selected bs.flatten) := by
  induction bs with
  | nil =>
    intro acc
    cases acc <;> rfl
  | cons b bs ih =>
    intro acc
    simp only [List.foldl_cons, ih, List.flatten_cons]
    rw [selected_eq_firstMax, selected_eq_firstMax, selected_eq_firstMax,
      firstMax_append, combineBest_assoc]

theorem pickLevel_eq_spec (mm : Int) :
    pickLevel mm levels_dict "" = spec_confidence mm := by
  simp only [levels_dict, pickLevel, spec_confidence]
  split_ifs <;> rfl

theorem insertAsc_head (x : Int) (l : List Int) :
    (insertAsc x l).head? =
      some (match l.head? with
            | none => x
            | some y => if x ≤ y then x else y) := by
  cases l with
  | nil => rfl
  | cons y ys => by_cases hc : x ≤ y <;> simp [insertAsc, hc]

theorem sortAsc_head (l : List Int) : (sortAsc l).head? = minOpt l := by
  induction l with
  | nil => rfl
  | cons x xs ih =>
    simp only [sortAsc, minOpt, insertAsc_head]
    rw [ih]
    cases minOpt xs with
    | none => rfl
    | some m => by_cases hc : x ≤ m <;> simp [hc]

theorem minOpt_eq_none {l : List Int} (h : minOpt l = none) : l = [] := by
  cases l with
  | nil => rfl
  | cons z zs =>
    exfalso
    simp only [minOpt] at h
    cases hz : minOpt zs with
    | none => rw [hz] at h; simp at h
    | some m => rw [hz] at h; by_cases hc : z ≤ m <;> simp [hc] at h

theorem minOpt_mem : ∀ {l : List Int} {m : Int}, minOpt l = some m → m ∈ l := by
  intro l
  induction l with
  | nil => intro m h; simp [minOpt] at h
  | cons x xs ih =>
    intro m h
    simp only [minOpt] at h
    cases hx : minOpt xs with
    | none => rw [hx] at h; simp at h; simp [h]
    | some y =>
      rw [hx] at h
      have h2 : (if x ≤ y then some x else some y) = some m := h
      by_cases hc : x ≤ y
      · rw [if_pos hc] at h2; simp at h2; simp [h2]
      · rw [if_neg hc] at h2
        simp at h2
        subst h2
        exact List.mem_cons_of_mem _ (ih hx)

theorem minOpt_le : ∀ {l : List Int} {m : Int}, minOpt l = some m →
    ∀ a ∈ l, m ≤ a := by
  intro l
  induction l with
  | nil => intro m h; simp [minOpt] at h
  | cons x xs ih =>
    intro m h a ha
    simp only [minOpt] at h
    cases hx : minOpt xs with
    | none =>
      rw [hx] at h
      simp at h
      have hnil := minOpt_eq_none hx
      subst hnil
      simp at ha
      omega
    | some y =>
      rw [hx] at h
      rcases List.mem_cons.mp ha with heq | ha2
      · subst heq
        have h2 : (if a ≤ y then some a else some y) = some m := h
        by_cases hc : a ≤ y
        · rw [if_pos hc] at h2; simp at h2; omega
        · rw [if_neg hc] at h2; simp at h2; omega
      · have hya := ih hx a ha2
        have h2 : (if x ≤ y then some x else some y) = some m := h
        by_cases hc : x ≤ y
        · rw [if_pos hc] at h2; simp at h2; omega
        · rw [if_neg hc] at h2; simp at h2; omega

theorem uniqueValsAux_subset (l : List Int) :
    ∀ (seen : List Int) (a : Int), a ∈ uniqueValsAux seen l → a ∈ l := by
  induction l with
  | nil => intro seen a h; simp [uniqueValsAux] at h
  | cons x xs ih =>
    intro seen a h
    simp only [uniqueValsAux] at h
    by_cases hs : seen.contains x
    · rw [if_pos hs] at h
      exact List.mem_cons_of_mem _ (ih seen a h)
    · rw [if_neg hs] at h
      rcases List.mem_cons.mp h with heq | h2
      · subst heq; exact List.mem_cons_self _ _
      · exact List.mem_cons_of_mem _ (ih (x :: seen) a h2)

theorem uniqueVals_subset (l : List Int) (a : Int) (h : a ∈ uniqueVals l) :
    a ∈ l :=
  uniqueValsAux_subset l [] a h

theorem groupHeadST_spec {table : List STHCRow} {hc st : Int}
    (h : groupHeadST table hc = some st) :
    (∃ r ∈ table, r.hc400 = hc ∧ r.st = st) ∧
      (∀ r ∈ table, r.hc400 = hc → st ≤ r.st) := by
  rw [groupHeadST, sortAsc_head] at h
  constructor
  · have hm := minOpt_mem h
    simp only [List.mem_map, List.mem_filter] at hm
    obtain ⟨r, ⟨hr, hhc⟩, hst⟩ := hm
    exact ⟨r, hr, by simpa using hhc, hst⟩
  · intro r hr hhc
    refine minOpt_le h r.st ?_
    simp only [List.mem_map, List.mem_filter]
    exact ⟨r, ⟨hr, by simp [hhc]⟩, rfl⟩

theorem groupHeadST_isSome {table : List STHCRow} {hc : Int}
    (h : ∃ r ∈ table, r.hc400 = hc) :
    ∃ st, groupHeadST table hc = some st := by
  obtain ⟨r, hr, hhc⟩ := h
  rw [groupHeadST, sortAsc_head]
  cases hm : minOpt ((table.filter (fun r => r.hc400 == hc)).map (fun r => r.st)) with
  | some st => exact ⟨st, rfl⟩
  | none =>
    exfalso
    have hnil := minOpt_eq_none hm
    have : r.st ∈ (table.filter (fun r => r.hc400 == hc)).map (fun r => r.st) := by
      simp only [List.mem_map, List.mem_filter]
      exact ⟨r, ⟨hr, by simp [hhc]⟩, rfl⟩
    rw [hnil] at this
    simp at this

theorem mem_get_representatives {table : List STHCRow} {st hc : Int} :
    (st, hc) ∈ get_representatives table ↔
      hc ∈ uniqueVals (table.map (fun r => r.hc400)) ∧
        groupHeadST table hc = some st := by
  simp only [get_representatives, List.mem_filterMap]
  constructor
  · rintro ⟨a, ha, hsome⟩
    cases hg : groupHeadST table a with
    | none => rw [hg] at hsome; simp at hsome
    | some s =>
      rw [hg] at hsome
      have h3 : (s, a) = (st, hc) := Option.some.inj hsome
      have h1 : s = st := congrArg Prod.fst h3
      have h2 : a = hc := congrArg Prod.snd h3
      subst h1; subst h2
      exact ⟨ha, hg⟩
  · rintro ⟨h1, h2⟩
    exact ⟨hc, h1, by rw [h2]; rfl⟩

theorem process_ST_eq (acc : List (Int × ProfileRow)) (st hc : Int)
    (profiles : List ProfileRow) :
    process_ST acc st hc profiles =
      acc ++ (profiles.filter (fun r => r.st == st)).map (fun r => (hc, r)) := by
  simp only [process_ST]
  split
  · rfl
  · rename_i hlen
    have hnil : profiles.filter (fun r => r.st == st) = [] := by
      cases hF : profiles.filter (fun r => r.st == st) with
      | nil => rfl
      | cons a as => rw [hF] at hlen; simp at hlen
    rw [hnil]
    simp

theorem build_representative_table_eq (table : List STHCRow)
    (profiles : List ProfileRow) :
    build_representative_table table profiles =
      ((get_representatives table).map
        (fun p => (profiles.filter (fun r => r.st == p.1)).map
          (fun r => (p.2, r)))).flatten := by
  rw [build_representative_table]
  suffices h : ∀ (reps : List (Int × Int)) (acc : List (Int × ProfileRow)),
      reps.foldl (fun acc p => process_ST acc p.1 p.2 profiles) acc =
        acc ++ (reps.map (fun p => (profiles.filter (fun r => r.st == p.1)).map
          (fun r => (p.2, r)))).flatten by
    simpa using h (get_representatives table) []
  intro reps
  induction reps with
  | nil => intro acc; simp
  | cons p ps ih =>
    intro acc
    rw [List.foldl_cons, process_ST_eq, ih, List.map_cons, List.flatten_cons,
      List.append_assoc]

theorem rstrip_decomp (l : List Char) (p : Char → Bool) :
    (l.reverse.dropWhile p).reverse ++ (l.reverse.takeWhile p).reverse = l := by
  rw [← List.reverse_append, List.takeWhile_append_dropWhile, List.reverse_reverse]

/-- C2: a locus at which either side carries the missing-call sentinel
(pandas NaN) contributes 0 to the match count, even when both sides carry
the sentinel; consequently a profile self-comparison reaches the full locus
count exactly when the profile has no missing call. -/
theorem claim_C2_missing_never_matches :
    (∀ a b : Cell, cellEq a b = true → a ≠ none ∧ b ≠ none) ∧
    cellEq none none = false ∧
    (∀ A : List Cell, matchCount A A = A.length ↔ ∀ x ∈ A, x ≠ none) := by
  refine ⟨?_, rfl, ?_⟩
  · intro a b h
    cases a <;> cases b <;> simp [cellEq] at h ⊢
  · intro A
    induction A with
    | nil => simp [matchCount]
    | cons x A ih =>
      have hb := matchCount_le_right A A
      simp only [matchCount, List.length_cons, List.mem_cons]
      cases x with
      | none =>
        constructor
        · intro h
          exfalso
          rw [show cellEq none none = false from rfl] at h
          simp at h
          omega
        · intro h
          exact absurd rfl (h none (Or.inl rfl))
      | some s =>
        rw [show cellEq (some s) (some s) = true from by simp [cellEq]]
        simp only [if_true]
        constructor
        · intro h y hy
          rcases hy with heq | hy2
          · subst heq; simp
          · exact (ih.mp (by omega)) y hy2
        · intro h
          have hA := ih.mpr (fun y hy => h y (Or.inr hy))
          omega

theorem claim_C2_missing_never_matches_witness :
    (some "1" ≠ (none : Cell) ∧ some "1" ≠ (none : Cell)) ∧
    matchCount [some "1"] [some "1"] = [some "1"].length :=
  ⟨claim_C2_missing_never_matches.1 (some "1") (some "1") (by decide),
   (claim_C2_missing_never_matches.2.2 [some "1"]).mpr
     (by intro x hx; simp only [List.mem_singleton] at hx; subst hx; simp)⟩

/-- C6: `collect_output_data` derives max_mismatches as nr_loci −
matching_alleles, and the confidence level is the first bucket of the
ordered table HC20, HC50, HC100, HC200, HC400, HC1100, unreliable whose
threshold is at least max_mismatches; nr_loci = 1100 with 1050 matching
alleles yields HC50. -/
theorem claim_C6_confidence_buckets (sel : List HierCCRow) (iso : String)
    (matching : Int) (nrLoci : Nat) :
    (∀ r ∈ collect_output_data sel iso matching nrLoci,
      r.max_mismatches = (nrLoci : Int) - matching ∧
      r.confidence_level = spec_confidence ((nrLoci : Int) - matching)) ∧
    (collect_output_data [⟨"ST1", ["1", "2"]⟩] "iso" 1050 1100).map
      (fun r => (r.max_mismatches, r.confidence_level)) = [(50, "HC50")] := by
  constructor
  · intro r hr
    simp only [collect_output_data, List.mem_map] at hr
    obtain ⟨h, hh, heq⟩ := hr
    subst heq
    exact ⟨rfl, pickLevel_eq_spec _⟩
  · rfl

theorem claim_C6_confidence_buckets_witness :
    (⟨"iso", 1050, 50, "HC50", 1100, ⟨"ST1", ["1", "2"]⟩⟩ : OutputRow).max_mismatches
        = ((1100 : Nat) : Int) - 1050 ∧
    (⟨"iso", 1050, 50, "HC50", 1100, ⟨"ST1", ["1", "2"]⟩⟩ : OutputRow).confidence_level
        = spec_confidence (((1100 : Nat) : Int) - 1050) :=
  (claim_C6_confidence_buckets [⟨"ST1", ["1", "2"]⟩] "iso" 1050 1100).1
    ⟨"iso", 1050, 50, "HC50", 1100, ⟨"ST1", ["1", "2"]⟩⟩ (by decide)

/-- C7: folding the per-batch best across a list of scored batches yields
the same result as the single-batch selection over their concatenation, up
to nothing: the split into batches never changes the selected ST or its
match count. -/
theorem claim_C7_batch_split_invariant (batches : List (List (String × Nat))) :
    selectAcrossBatches batches = selected batches.flatten := by
  rw [selectAcrossBatches, foldl_combineBest]
  rfl

/-- C8: every match count produced by `process_chunk` lies between 0 and
the number of locus columns of the scheme; the identifier column is not
scored. -/
theorem claim_C8_match_count_bounds (chunk : List Row) (query : List Cell)
    (nr_loci : Nat) (h : ∀ r ∈ chunk, r.alleles.length = nr_loci) :
    ∀ p ∈ process_chunk chunk query, 0 ≤ p.2 ∧ p.2 ≤ nr_loci := by
  intro p hp
  simp only [process_chunk, List.mem_map] at hp
  obtain ⟨r, hr, heq⟩ := hp
  subst heq
  refine ⟨Nat.zero_le _, ?_⟩
  have hb := matchCount_le_right query r.alleles
  rw [h r hr] at hb
  exact hb

theorem claim_C8_match_count_bounds_witness :
    0 ≤ (("ST1", 1) : String × Nat).2 ∧ (("ST1", 1) : String × Nat).2 ≤ 2 :=
  claim_C8_match_count_bounds [⟨"ST1", [some "A", none]⟩] [some "A", some "B"] 2
    (by intro r hr; simp only [List.mem_singleton] at hr; subst hr; rfl)
    ("ST1", 1) (by decide)

/-- C9: scoring a batch is side-effect-free: the stored chunk after the
call equals the chunk before the call, the result agrees with the pure
scorer, and equal inputs give equal outputs. -/
theorem claim_C9_scorer_frame (chunk : List Row) (query : List Cell) :
    (process_chunk_st chunk query).2 = chunk ∧
    (process_chunk_st chunk query).1 = process_chunk chunk query ∧
    ∀ c q, c = chunk → q = query →
      process_chunk_st c q = process_chunk_st chunk query := by
  refine ⟨rfl, ?_, ?_⟩
  · simp only [process_chunk_st, process_chunk]
    rw [List.zip_map']
  · intro c q hc hq
    rw [hc, hq]

theorem claim_C9_scorer_frame_witness :
    (process_chunk_st [⟨"ST1", [some "A"]⟩] [some "A"]).2 = [⟨"ST1", [some "A"]⟩] ∧
    process_chunk_st [⟨"ST1", [some "A"]⟩] [some "A"] =
      process_chunk_st [⟨"ST1", [some "A"]⟩] [some "A"] :=
  ⟨(claim_C9_scorer_frame [⟨"ST1", [some "A"]⟩] [some "A"]).1,
   (claim_C9_scorer_frame [⟨"ST1", [some "A"]⟩] [some "A"]).2.2
     [⟨"ST1", [some "A"]⟩] [some "A"] rfl rfl⟩

/-- C10: the emitted isolate name is the FILE value with every trailing
character drawn from the set {., f, a, s, t} removed (Python
`str.rstrip('.fasta')` semantics), not the removal of one literal ".fasta"
suffix: the FILE value "data.fasta" yields "d", and in general the FILE
value decomposes into the returned name followed by a removed tail all of
whose characters belong to the set. -/
theorem claim_C10_rstrip_char_set :
    isolate_name "data.fasta" = "d" ∧
    isolate_name "data.fasta" ≠ "data" ∧
    (∀ s : String,
      isolate_name s ++
        ⟨(s.data.reverse.takeWhile (fun c => fastaStripSet.contains c)).reverse⟩ = s) ∧
    (∀ s : String, ∀ c ∈ s.data.reverse.takeWhile (fun c => fastaStripSet.contains c),
      c ∈ fastaStripSet) := by
  refine ⟨by decide, by decide, ?_, ?_⟩
  · intro s
    cases s with
    | mk l =>
      exact congrArg String.mk (rstrip_decomp l (fun c => fastaStripSet.contains c))
  · intro s c hc
    have hp := List.mem_takeWhile_imp hc
    exact List.mem_of_elem_eq_true hp

theorem claim_C10_rstrip_char_set_witness :
    isolate_name "data.fasta" = "d" ∧ ('.' : Char) ∈ fastaStripSet :=
  ⟨claim_C10_rstrip_char_set.1,
   claim_C10_rstrip_char_set.2.2.2 "a." '.' (by decide)⟩

/-- C4 counterexample: for the cluster value 42 and shard directory
"profiles", the path the resolver opens is not the path the builder
writes. -/
theorem claim_C4_shard_name_counterexample :
    resolver_shard_filepath "profiles" "42" ≠ builder_shard_filepath "profiles" "42" := by
  decide

/-- C4 amended: both scripts name shard files deterministically as
directory, prefix, cluster value, ".tsv" — but the builder prefix is
"HC400_" while the resolver prefix is "HC1100_", so for every directory and
every cluster value the file name the resolver opens differs from the file
name the builder writes. -/
theorem claim_C4_shard_name_mismatch (outdir v : String) :
    builder_shard_filepath outdir v = outdir ++ "/HC400_" ++ v ++ ".tsv" ∧
    resolver_shard_filepath outdir v = outdir ++ "/HC1100_" ++ v ++ ".tsv" ∧
    resolver_shard_filepath outdir v ≠ builder_shard_filepath outdir v := by
  refine ⟨rfl, rfl, ?_⟩
  intro h
  have hl := congrArg String.length h
  simp only [resolver_shard_filepath, builder_shard_filepath,
    String.length_append] at hl
  have e1 : ("/HC1100_" : String).length = 8 := rfl
  have e2 : ("/HC400_" : String).length = 7 := rfl
  have e3 : (".tsv" : String).length = 4 := rfl
  rw [e1, e2, e3] at hl
  omega

theorem claim_C4_shard_name_mismatch_witness :
    builder_shard_filepath "d" "7" = "d" ++ "/HC400_" ++ "7" ++ ".tsv" ∧
    resolver_shard_filepath "d" "7" = "d" ++ "/HC1100_" ++ "7" ++ ".tsv" ∧
    resolver_shard_filepath "d" "7" ≠ builder_shard_filepath "d" "7" :=
  claim_C4_shard_name_mismatch "d" "7"

/-- C5: for every group of STs sharing an HC400 value,
`get_representatives` selects the numerically lowest ST of the group, and
the representative table built by the main loop emits no row for a group
whose chosen representative has no profile in the reference database. -/
theorem claim_C5_lowest_representative (table : List STHCRow)
    (profiles : List ProfileRow) :
    (∀ hc ∈ uniqueVals (table.map (fun r => r.hc400)),
      ∃ st, (st, hc) ∈ get_representatives table ∧
        (∃ r ∈ table, r.hc400 = hc ∧ r.st = st) ∧
        (∀ r ∈ table, r.hc400 = hc → st ≤ r.st)) ∧
    (∀ st hc, (st, hc) ∈ get_representatives table →
      (∀ p ∈ profiles, p.st ≠ st) →
      ∀ q ∈ build_representative_table table profiles, q.1 ≠ hc) := by
  constructor
  · intro hc hhc
    have hrow : ∃ r ∈ table, r.hc400 = hc := by
      have hmem := uniqueVals_subset _ hc hhc
      simp only [List.mem_map] at hmem
      obtain ⟨r, hr, hrhc⟩ := hmem
      exact ⟨r, hr, hrhc⟩
    obtain ⟨st, hst⟩ := groupHeadST_isSome hrow
    obtain ⟨hmem, hmin⟩ := groupHeadST_spec hst
    exact ⟨st, mem_get_representatives.mpr ⟨hhc, hst⟩, hmem, hmin⟩
  · intro st hc hrep hnone q hq
    rw [build_representative_table_eq] at hq
    simp only [List.mem_flatten, List.mem_map] at hq
    obtain ⟨L, ⟨p, hp, hL⟩, hqL⟩ := hq
    subst hL
    simp only [List.mem_map] at hqL
    obtain ⟨r, hrf, hqr⟩ := hqL
    subst hqr
    intro hqhc
    have hph : p.2 = hc := hqhc
    have hpmem : (p.1, p.2) ∈ get_representatives table := hp
    obtain ⟨hu, hg⟩ := mem_get_representatives.mp hpmem
    rw [hph] at hg
    have hst2 : groupHeadST table hc = some st := (mem_get_representatives.mp hrep).2
    have hp1 : p.1 = st := by
      rw [hg] at hst2
      exact Option.some.inj hst2
    rw [List.mem_filter] at hrf
    have hrst : r.st = p.1 := by simpa using hrf.2
    exact hnone r hrf.1 (by rw [hrst, hp1])

theorem claim_C5_lowest_representative_witness :
    (∃ st, (st, 10) ∈ get_representatives [⟨5, 10⟩, ⟨3, 10⟩] ∧
      (∃ r ∈ [(⟨5, 10⟩ : STHCRow), ⟨3, 10⟩], r.hc400 = 10 ∧ r.st = st) ∧
      (∀ r ∈ [(⟨5, 10⟩ : STHCRow), ⟨3, 10⟩], r.hc400 = 10 → st ≤ r.st)) ∧
    ∀ q ∈ build_representative_table [⟨5, 10⟩, ⟨3, 10⟩] [⟨7, []⟩], q.1 ≠ 10 :=
  ⟨(claim_C5_lowest_representative [⟨5, 10⟩, ⟨3, 10⟩] [⟨7, []⟩]).1 10 (by decide),
   (claim_C5_lowest_representative [⟨5, 10⟩, ⟨3, 10⟩] [⟨7, []⟩]).2 3 10 (by decide)
     (by intro p hp; simp only [List.mem_singleton] at hp; subst hp; decide)⟩

/-- C3 counterexample: with a hierCC table lacking the selected ST of the
first isolate, the whole run returns the uncaught lookup exception, and the
second isolate — which on its own would succeed, as the second conjunct
shows — produces no output: the batch is aborted, not continued. -/
theorem claim_C3_abort_counterexample :
    main_loop [⟨"7", [some "A"]⟩] "profiles"
        [("profiles/HC1100_7.tsv", [⟨"101", [some "A"]⟩, ⟨"102", [some "B"]⟩])]
        [⟨"102", ["5"]⟩] 1
        [("iso1.fasta", [some "A"]), ("iso2.fasta", [some "B"])] =
      .error ("cgMLST 101 was not found in the ST to hierCC lookup table. Please check whether these files were produced from the same database version") ∧
    main_loop [⟨"7", [some "A"]⟩] "profiles"
        [("profiles/HC1100_7.tsv", [⟨"101", [some "A"]⟩, ⟨"102", [some "B"]⟩])]
        [⟨"102", ["5"]⟩] 1
        [("iso2.fasta", [some "B"])] =
      .ok [⟨"iso2", 1, 0, "HC20", 1, ⟨"102", ["5"]⟩⟩] := by
  constructor <;> rfl

/-- C3 amended: when the selected ST of the isolate at the head of the
queue is absent from the hierCC table, `main` raises the lookup exception
and the run aborts: the remaining isolates are never processed and no
output at all is produced. -/
theorem claim_C3_unresolved_st_aborts (reps : List Row) (outdir : String)
    (shards : List (String × List Row)) (hier : List HierCCRow) (nrLoci : Nat)
    (FILE : String) (query : List Cell) (rest : List (String × List Cell))
    (st : String) (ma : Nat) (iso : String)
    (hid : identify_cgMLST_isolate reps outdir shards query FILE = .ok (st, ma, iso))
    (habs : (hier.filter (fun r => r.st == st)).length = 0) :
    main_loop reps outdir shards hier nrLoci ((FILE, query) :: rest) =
      .error ("cgMLST " ++ st ++ " was not found in the ST to hierCC lookup table. Please check whether these files were produced from the same database version") := by
  simp only [main_loop, hid]
  simp [select_hierCC, habs]

theorem claim_C3_unresolved_st_aborts_witness :
    main_loop [⟨"7", [some "A"]⟩] "profiles"
        [("profiles/HC1100_7.tsv", [⟨"101", [some "A"]⟩])] [] 1
        [("iso1.fasta", [some "A"])] =
      .error ("cgMLST 101 was not found in the ST to hierCC lookup table. Please check whether these files were produced from the same database version") :=
  claim_C3_unresolved_st_aborts [⟨"7", [some "A"]⟩] "profiles"
    [("profiles/HC1100_7.tsv", [⟨"101", [some "A"]⟩])] [] 1
    "iso1.fasta" [some "A"] [] "101" 1 "iso1" rfl rfl

end MCE
